import Mathlib

/-
Verification of the sqlitepie schema metamodel.

This file is a shallow embedding of the core of the sqlitepie package
(src/sqlitepie): the descriptor layer (descriptors.py), the keyed
collection layer (collections.py), the schema object graph (schema.py,
mixins.py), the primary-key constraint (constraints.py, constants.py)
and the file-path handling of the connection manager (engines.py,
utils.py).  Python per-instance attribute storage (`__dict__`) is
modelled as an insertion-ordered association list; the object graph is
modelled as a heap (a list of objects addressed by position) so that
child-to-parent back-references can be represented faithfully as
references.  Exceptions are modelled with `Except` over an error type
mirroring exceptions.py plus the relevant Python builtins.
-/

namespace Sqlitepie

/-- Values that can sit in a modelled Python instance dictionary: strings,
booleans, SQLite engine objects (opaque, compared by identity `id`),
references to other heap objects, and Python `None`. -/
inductive Val where
  | vstr (s : String)
  | vbool (b : Bool)
  | vengine (id : Nat)
  | ref (i : Nat)
  | vnone
deriving DecidableEq, Repr

/-- An insertion-ordered string-keyed dictionary, modelling both a Python
instance `__dict__` (descriptors.py stores values there) and the
`_fields` dict of collections.py. -/
abbrev DictT := List (String × Val)

/-- A heap object: its `__type_name__` (the lowercased class name, see
`Model.__type_name__` in schema.py), whether it is a `BaseItem` subclass
(whose `_traverse` substitutes the parent back-reference), whether it is
a `Collection` (whose dict is its `_fields`), and its dictionary. -/
structure Obj where
  typeName : String
  isItem : Bool
  isColl : Bool
  fields : DictT
deriving DecidableEq, Repr

/-- The modelled Python heap; `Val.ref i` points to position `i`. -/
abbrev Heap := List Obj

/-- Errors raised by the modelled code.  Constructors mirror the classes
of exceptions.py (`IllegalOperation`, `SchemaNameError`,
`SQLiteEngineError`, `MissingKeyError`, `DuplicateKeyError`,
`DuplicateItemError`, `ArgumentError`, `ConstraintError`) plus the
Python builtins the code raises: `ValueError` (descriptor validation),
`IndexError` raised by `Collection._get_by_index` itself
(`collIndexOutOfRange`, message naming the collection and the index),
the distinct builtin `IndexError` coming from indexing the Python list
`list(self._fields.values())` (`listIndexOutOfRange`, message
"list index out of range"), `TypeError` (raised by `', '.join` inside
`Model._check_params` when a leftover positional parameter is not a
string), and `AttributeError`. -/
inductive Err where
  | missingKey (k : String)
  | duplicateKey (k : String)
  | duplicateItem
  | illegalOperation
  | valueError
  | typeError
  | collIndexOutOfRange (i : Int)
  | listIndexOutOfRange
  | schemaNameError (v : String)
  | engineTypeError
  | constraintError (v : String)
  | argumentError (argCount : Nat) (kwargNames : List String)
  | attributeError
deriving DecidableEq, Repr

/-- Lookup in a modelled dictionary (first binding of the key wins; a
Python dict holds each key at most once). -/
def lookupVal : DictT → String → Option Val
  | [], _ => Option.none
  | (k', v) :: rest, k => if k' = k then some v else lookupVal rest k

/-- Python `key in d`. -/
def hasKey (d : DictT) (k : String) : Bool := (lookupVal d k).isSome

/-- Python `d.get(key)`: `None` when the key is absent. -/
def pyGet (d : DictT) (k : String) : Val := (lookupVal d k).getD Val.vnone

/-- Python `d.update({k: v})`: rebind in place when the key exists,
append otherwise. -/
def dictUpdate : DictT → String → Val → DictT
  | [], k, v => [(k, v)]
  | (k', v') :: rest, k, v =>
    if k' = k then (k', v) :: rest else (k', v') :: dictUpdate rest k v

/-- Python `list(d.keys())`. -/
def keysOf (d : DictT) : List String := d.map Prod.fst

/-- Python `list(d.values())`. -/
def valuesOf (d : DictT) : List Val := d.map Prod.snd

theorem lookupVal_append_of_none {d : DictT} {k : String}
    (h : lookupVal d k = Option.none) (l : DictT) :
    lookupVal (d ++ l) k = lookupVal l k := by
  induction d with
  | nil => rfl
  | cons kv rest ih =>
    obtain ⟨k', v⟩ := kv
    by_cases hk : k' = k
    · simp [lookupVal, hk] at h
    · simp only [lookupVal, List.cons_append, if_neg hk] at h ⊢
      exact ih h

theorem hasKey_false_iff {d : DictT} {k : String} :
    hasKey d k = false ↔ lookupVal d k = Option.none := by
  unfold hasKey
  cases lookupVal d k <;> simp

theorem dictUpdate_of_none {d : DictT} {k : String}
    (h : lookupVal d k = Option.none) (v : Val) :
    dictUpdate d k v = d ++ [(k, v)] := by
  induction d with
  | nil => rfl
  | cons kv rest ih =>
    obtain ⟨k', v'⟩ := kv
    by_cases hk : k' = k
    · simp [lookupVal, hk] at h
    · simp only [lookupVal, if_neg hk] at h
      simp [dictUpdate, if_neg hk, ih h]

theorem lookup_dictUpdate_self (d : DictT) (k : String) (v : Val) :
    lookupVal (dictUpdate d k v) k = some v := by
  induction d with
  | nil => simp [dictUpdate, lookupVal]
  | cons kv rest ih =>
    obtain ⟨k', v'⟩ := kv
    by_cases hk : k' = k
    · simp [dictUpdate, hk, lookupVal]
    · simp [dictUpdate, hk, lookupVal, ih]

theorem lookup_singleton_self (k : String) (v : Val) :
    lookupVal [(k, v)] k = some v := by
  simp [lookupVal]

/-- Collection._check_key: raise `DuplicateKeyError` when the key is
already bound in `_fields`. -/
def Collection.checkKey (c : DictT) (k : String) : Except Err String :=
  if hasKey c k then .error (.duplicateKey k) else .ok k

/-- Collection._check_value: raise `DuplicateItemError` when the value is
already present among `_fields.values()`. -/
def Collection.checkValue (c : DictT) (v : Val) : Except Err Val :=
  if v ∈ valuesOf c then .error .duplicateItem else .ok v

/-- Collection._check_item: the key is checked first, then the value (a
Python dict display evaluates the key expression before the value
expression). -/
def Collection.checkItem (c : DictT) (k : String) (v : Val) :
    Except Err (String × Val) :=
  match Collection.checkKey c k with
  | .error e => .error e
  | .ok k' =>
    match Collection.checkValue c v with
    | .error e => .error e
    | .ok v' => .ok (k', v')

/-- MixinCollection.insert: `self._fields.update(self._check_item(key, value))`. -/
def MixinCollection.insert (c : DictT) (k : String) (v : Val) :
    Except Err DictT :=
  match Collection.checkItem c k v with
  | .error e => .error e
  | .ok kv => .ok (dictUpdate c kv.1 kv.2)

/-- State-passing view of `MixinCollection.insert`: the pair is the
content of `_fields` after the call together with the raised error, if
any.  In the source, `self._check_item(key, value)` only reads
`_fields`; `self._fields.update(...)` (the only mutation) runs after
`_check_item` has returned, so when `_check_item` raises, `_fields` is
left exactly as it was. -/
def MixinCollection.insertState (c : DictT) (k : String) (v : Val) :
    DictT × Option Err :=
  match Collection.checkItem c k v with
  | .error e => (c, some e)
  | .ok kv => (dictUpdate c kv.1 kv.2, Option.none)

/-- Collection._get_by_key: raise `MissingKeyError` when absent, else
return `_fields.get(key)`. -/
def Collection.getByKey (c : DictT) (k : String) : Except Err Val :=
  if hasKey c k then .ok (pyGet c k) else .error (.missingKey k)

/-- Collection._get_by_index: the guard raises the collection's own
`IndexError` when `key >= len(self._fields)`; otherwise the Python list
`list(self._fields.values())` is indexed, which resolves a negative
index `i` to `len + i` and raises the builtin list `IndexError` when
the resolved position is still negative. -/
def Collection.getByIndex (c : DictT) (i : Int) : Except Err Val :=
  if (c.length : Int) ≤ i then .error (.collIndexOutOfRange i)
  else
    let n : Int := (c.length : Int)
    let j : Int := if i < 0 then n + i else i
    if 0 ≤ j ∧ j < n then .ok ((valuesOf c).getD j.toNat Val.vnone)
    else .error .listIndexOutOfRange

theorem values_append_single (c : DictT) (k : String) (v : Val) :
    valuesOf (c ++ [(k, v)]) = valuesOf c ++ [v] := by
  simp [valuesOf]

theorem hasKey_append_true {c : DictT} {k : String} (v : Val)
    (h : lookupVal c k = Option.none) :
    hasKey (c ++ [(k, v)]) k = true := by
  unfold hasKey
  rw [lookupVal_append_of_none h, lookup_singleton_self]
  rfl

/-- C4: for a mutable keyed collection, inserting a fresh key with a
fresh value succeeds and the key then looks up to that value; inserting
any value under the now-bound key raises `DuplicateKeyError`; inserting
the now-present value under any fresh key raises `DuplicateItemError`.
(Collection._check_item / _check_key / _check_value and
MixinCollection.insert, collections.py and schema.py.) -/
theorem c4_insert_lookup_duplicates (c : DictT) (k k2 : String) (v v2 : Val)
    (hk : hasKey c k = false) (hv : v ∉ valuesOf c) :
    MixinCollection.insert c k v = .ok (c ++ [(k, v)]) ∧
    Collection.getByKey (c ++ [(k, v)]) k = .ok v ∧
    MixinCollection.insert (c ++ [(k, v)]) k v2 = .error (.duplicateKey k) ∧
    (hasKey (c ++ [(k, v)]) k2 = false →
      MixinCollection.insert (c ++ [(k, v)]) k2 v = .error .duplicateItem) := by
  have hl : lookupVal c k = Option.none := hasKey_false_iff.mp hk
  have hupd : dictUpdate c k v = c ++ [(k, v)] := dictUpdate_of_none hl v
  have hlk : lookupVal (c ++ [(k, v)]) k = some v := by
    rw [lookupVal_append_of_none hl, lookup_singleton_self]
  refine ⟨?_, ?_, ?_, ?_⟩
  · simp [MixinCollection.insert, Collection.checkItem, Collection.checkKey,
      Collection.checkValue, hk, hv, hupd]
  · simp [Collection.getByKey, hasKey, hlk, pyGet]
  · simp [MixinCollection.insert, Collection.checkItem, Collection.checkKey,
      hasKey, hlk]
  · intro hk2
    have hv' : v ∈ valuesOf (c ++ [(k, v)]) := by
      rw [values_append_single]
      simp
    simp [MixinCollection.insert, Collection.checkItem, Collection.checkKey,
      Collection.checkValue, hk2, hv']

/-- C4 witness: the three behaviours at a concrete collection. -/
theorem c4_witness :
    MixinCollection.insert [] "a" (.vstr "x") = .ok [("a", .vstr "x")] ∧
    Collection.getByKey [("a", .vstr "x")] "a" = .ok (.vstr "x") ∧
    MixinCollection.insert [("a", .vstr "x")] "a" (.vbool true) =
      .error (.duplicateKey "a") ∧
    MixinCollection.insert [("a", .vstr "x")] "b" (.vstr "x") =
      .error .duplicateItem := by
  have h := c4_insert_lookup_duplicates [] "a" "b" (.vstr "x") (.vbool true)
    (by decide) (by decide)
  exact ⟨h.1, h.2.1, h.2.2.1, h.2.2.2 (by decide)⟩

/-- C9: keyed-collection insertion is atomic on failure: whenever
`insert` raises, the `_fields` of the collection (its keys, values,
order and length) are exactly as before the call
(MixinCollection.insert, schema.py; Collection._check_item,
collections.py). -/
theorem c9_insert_atomic (c : DictT) (k : String) (v : Val) (e : Err)
    (h : (MixinCollection.insertState c k v).2 = some e) :
    (MixinCollection.insertState c k v).1 = c ∧
    keysOf (MixinCollection.insertState c k v).1 = keysOf c ∧
    valuesOf (MixinCollection.insertState c k v).1 = valuesOf c ∧
    ((MixinCollection.insertState c k v).1).length = c.length := by
  unfold MixinCollection.insertState at h ⊢
  cases hc : Collection.checkItem c k v with
  | error e' => simp [hc]
  | ok kv => simp [hc] at h

/-- C9 witness: a duplicate-key failure leaves the collection unchanged. -/
theorem c9_witness :
    (MixinCollection.insertState [("a", .vstr "x")] "a" (.vbool true)).1 =
      [("a", .vstr "x")] := by
  exact (c9_insert_atomic [("a", .vstr "x")] "a" (.vbool true)
    (.duplicateKey "a") (by decide)).1

/-- C10: indexed lookup raises the collection's own out-of-range error
exactly for integer positions at or above the collection's size, and for
every negative index `i` with `-n ≤ i ≤ -1` it does not raise and
returns the element at insertion position `n + i`
(Collection._get_by_index, collections.py). -/
theorem c10_negative_index (c : DictT) (i : Int) :
    (Collection.getByIndex c i = .error (.collIndexOutOfRange i) ↔
      (c.length : Int) ≤ i) ∧
    (-(c.length : Int) ≤ i → i ≤ -1 →
      Collection.getByIndex c i =
        .ok ((valuesOf c).getD ((c.length : Int) + i).toNat Val.vnone)) := by
  constructor
  · constructor
    · intro h
      by_contra hlt
      unfold Collection.getByIndex at h
      rw [if_neg hlt] at h
      by_cases hb : 0 ≤ (if i < 0 then (c.length : Int) + i else i) ∧
          (if i < 0 then (c.length : Int) + i else i) < (c.length : Int)
      · rw [if_pos hb] at h
        exact Except.noConfusion h
      · rw [if_neg hb] at h
        simp at h
    · intro h
      unfold Collection.getByIndex
      rw [if_pos h]
  · intro h1 h2
    have hlt : ¬ ((c.length : Int) ≤ i) := by omega
    have hneg : i < 0 := by omega
    have hb : 0 ≤ (c.length : Int) + i ∧ (c.length : Int) + i < (c.length : Int) := by
      omega
    unfold Collection.getByIndex
    rw [if_neg hlt]
    simp only [if_pos hneg, if_pos hb]

/-- C10 witness: looking up index `-1` in a two-element collection
returns the second element. -/
theorem c10_witness :
    Collection.getByIndex [("a", Val.vstr "x"), ("b", Val.vstr "y")] (-1) =
      .ok ((valuesOf [("a", Val.vstr "x"), ("b", Val.vstr "y")]).getD
        (((List.length [("a", Val.vstr "x"), ("b", Val.vstr "y")] : Int) + (-1)).toNat)
        Val.vnone) := by
  exact (c10_negative_index [("a", Val.vstr "x"), ("b", Val.vstr "y")] (-1)).2
    (by decide) (by decide)

/-- AnyVar._check_value: the value must not be `None` (ValueError
otherwise). -/
def checkAny (v : Val) : Except Err Val :=
  if v = Val.vnone then .error .valueError else .ok v

/-- StringVar._check_value: the value must be a non-empty string
(ValueError otherwise). -/
def checkStr (v : Val) : Except Err Val :=
  match v with
  | .vstr s => if s.length > 0 then .ok v else .error .valueError
  | _ => .error .valueError

/-- BoolVar._check_value: the value must be a bool (ValueError
otherwise). -/
def checkBool (v : Val) : Except Err Val :=
  match v with
  | .vbool _ => .ok v
  | _ => .error .valueError

/-- SQLiteEngine._check_value: the value must be a `SQLite` engine
instance (SQLiteEngineError otherwise). -/
def checkEngineVal (v : Val) : Except Err Val :=
  match v with
  | .vengine _ => .ok v
  | _ => .error .engineTypeError

/-- Python str.lower for the ASCII names this code handles, written over
the character list so that it reduces definitionally. -/
def lowerString (s : String) : String := String.mk (s.data.map Char.toLower)

/-- Python str.upper for the ASCII names this code handles. -/
def upperString (s : String) : String := String.mk (s.data.map Char.toUpper)

/-- SCHEMA_NAME_LIST from constants.py. -/
def SCHEMA_NAME_LIST : List String := ["main", "temp"]

/-- SchemaName._check_value: first the StringVar check, then `_check_name`
lowercases the value and requires it to be in SCHEMA_NAME_LIST, storing
the lowercased name. -/
def checkSchemaNameVal (v : Val) : Except Err Val :=
  match checkStr v with
  | .error e => .error e
  | .ok v' =>
    match v' with
    | .vstr s =>
      let n := lowerString s
      if n ∈ SCHEMA_NAME_LIST then .ok (.vstr n)
      else .error (.schemaNameError s)
    | _ => .error .valueError

/-- Set through a validating immutable descriptor (the `ImmutableVar`
family): `AnyVar.__set__` first runs `_check_value`, then
`Immutable.__set__` raises `IllegalOperation` when the attribute is
already in the instance dict, else `Descriptor.__set__` stores it. -/
def varSet (check : Val → Except Err Val) (d : DictT) (attr : String)
    (v : Val) : Except Err DictT :=
  match check v with
  | .error e => .error e
  | .ok v' =>
    if hasKey d attr then .error .illegalOperation
    else .ok (dictUpdate d attr v')

/-- Immutable.__delete__: always raises `IllegalOperation`. -/
def immutDelete (_d : DictT) (_attr : String) : Except Err DictT :=
  .error .illegalOperation

/-- Descriptor.__get__ on an instance: `instance.__dict__.get(attr)`,
`None` when unset. -/
def descGet (d : DictT) (attr : String) : Val := pyGet d attr

/-- Toggle._get_value: with no fallback, read the attribute; with a
fallback, when the attribute is unset return the value stored under the
fallback name on the same instance, else the attribute's value. -/
def toggleGet (d : DictT) (attr : String) (fb : Option String) : Val :=
  match fb with
  | Option.none => pyGet d attr
  | some f =>
    if ¬ hasKey d attr then pyGet d f
    else pyGet d attr

/-- Replace the dictionary of heap object `i`. -/
def setFields (h : Heap) (i : Nat) (d : DictT) : Heap :=
  match h.get? i with
  | some o => h.set i { o with fields := d }
  | Option.none => h

/-- SQLiteEngine._get_value: with no fallback, read the attribute from
the instance; with a fallback, when the attribute is unset on the
instance, rebind `instance` to the object stored under the fallback name
and read the same attribute name from that object's dict (an
AttributeError when the fallback slot does not hold an object). -/
def engineGet (h : Heap) (d : DictT) (attr : String) (fb : Option String) :
    Except Err Val :=
  match fb with
  | Option.none => .ok (pyGet d attr)
  | some f =>
    if hasKey d attr then .ok (pyGet d attr)
    else
      match pyGet d f with
      | .ref j =>
        match h.get? j with
        | some o => .ok (pyGet o.fields attr)
        | Option.none => .error .attributeError
      | _ => .error .attributeError

/-- SQLiteEngine.__set__: when a fallback name is configured, `instance`
is first rebound to `instance.__dict__.get(fallback)`; then
`AnyVar.__set__` validates the value (`_check_value`) and
`Immutable.__set__` enforces one-time write against the (possibly
rebound) instance's dict before storing there. -/
def engineSet (h : Heap) (i : Nat) (attr : String) (fb : Option String)
    (v : Val) : Except Err Heap :=
  match h.get? i with
  | Option.none => .error .attributeError
  | some o =>
    match fb with
    | Option.none =>
      match checkEngineVal v with
      | .error e => .error e
      | .ok v' =>
        if hasKey o.fields attr then .error .illegalOperation
        else .ok (setFields h i (dictUpdate o.fields attr v'))
    | some f =>
      match pyGet o.fields f with
      | .ref j =>
        match checkEngineVal v with
        | .error e => .error e
        | .ok v' =>
          match h.get? j with
          | some oj =>
            if hasKey oj.fields attr then .error .illegalOperation
            else .ok (setFields h j (dictUpdate oj.fields attr v'))
          | Option.none => .error .attributeError
      | _ =>
        match checkEngineVal v with
        | .error e => .error e
        | .ok _ => .error .attributeError

/-- C5 (amended): for every validating immutable slot, the first set
succeeds subject to validation; a subsequent set of a value that passes
validation raises `IllegalOperation`; a subsequent set of an invalid
value raises that validation error (validation runs before the
immutability check in `AnyVar.__set__`); delete always raises
`IllegalOperation`; get before any set returns `None`, or the value
stored under the fallback name when one is configured and set
(descriptors.py: Descriptor, Immutable, AnyVar, Toggle). -/
theorem c5_immutable_slot_behavior (check : Val → Except Err Val)
    (d : DictT) (attr f : String) (v v' : Val) (e : Err) :
    (check v = .ok v' → hasKey d attr = false →
      varSet check d attr v = .ok (dictUpdate d attr v')) ∧
    (check v = .ok v' → hasKey d attr = true →
      varSet check d attr v = .error .illegalOperation) ∧
    (check v = .error e → varSet check d attr v = .error e) ∧
    immutDelete d attr = .error .illegalOperation ∧
    (hasKey d attr = false → descGet d attr = Val.vnone) ∧
    (hasKey d attr = false → toggleGet d attr (some f) = pyGet d f) := by
  refine ⟨?_, ?_, ?_, rfl, ?_, ?_⟩
  · intro hc hk
    simp [varSet, hc, hk]
  · intro hc hk
    simp [varSet, hc, hk]
  · intro hc
    simp [varSet, hc]
  · intro hk
    have := hasKey_false_iff.mp hk
    simp [descGet, pyGet, this]
  · intro hk
    simp [toggleGet, hk]

/-- C5 witness: the behaviour at a concrete string slot. -/
theorem c5_witness :
    varSet checkStr [] "name" (.vstr "x") =
      .ok (dictUpdate [] "name" (.vstr "x")) ∧
    varSet checkStr [("name", Val.vstr "y")] "name" (.vstr "x") =
      .error .illegalOperation ∧
    immutDelete [("name", Val.vstr "y")] "name" = .error .illegalOperation ∧
    descGet [] "name" = Val.vnone ∧
    toggleGet [("name", Val.vstr "y")] "key" (some "name") = Val.vstr "y" := by
  refine ⟨?_, ?_, ?_, ?_, ?_⟩
  · exact (c5_immutable_slot_behavior checkStr [] "name" "name" (.vstr "x")
      (.vstr "x") .valueError).1 rfl (by decide)
  · exact (c5_immutable_slot_behavior checkStr [("name", Val.vstr "y")]
      "name" "name" (.vstr "x") (.vstr "x") .valueError).2.1
      rfl (by decide)
  · exact (c5_immutable_slot_behavior checkStr [("name", Val.vstr "y")]
      "name" "name" (.vstr "x") (.vstr "x") .valueError).2.2.2.1
  · exact (c5_immutable_slot_behavior checkStr [] "name" "name" (.vstr "x")
      (.vstr "x") .valueError).2.2.2.2.1 (by decide)
  · exact (c5_immutable_slot_behavior checkStr [("name", Val.vstr "y")]
      "key" "name" (.vstr "x") (.vstr "x") .valueError).2.2.2.2.2 (by decide)

/-- C5 counterexample: on an immutable string slot that already holds a
value, a subsequent set of an invalid value (a bool where a non-empty
string is required) raises the validation `ValueError`, not the
illegal-operation error the claim demands for every subsequent set:
`AnyVar.__set__` runs `_check_value` before `Immutable.__set__` checks
the instance dict. -/
theorem c5_counterexample :
    varSet checkStr [("name", Val.vstr "x")] "name" (.vbool true) =
      .error .valueError ∧
    (Err.valueError ≠ Err.illegalOperation) := by
  exact ⟨rfl, by decide⟩

/-- C2 (amended): when the local value is set, a fallback-configured slot
returns the local value; the engine slots (SQLiteEngine._get_value)
resolve an unset local value by reading the same attribute name from the
object referenced by the fallback name; the generic Toggle slots
(Toggle._get_value) instead return the value stored under the fallback
name on the same instance (descriptors.py). -/
theorem c2_fallback_resolution (h : Heap) (d : DictT) (attr f : String)
    (j : Nat) (o : Obj) :
    (hasKey d attr = true → engineGet h d attr (some f) = .ok (pyGet d attr)) ∧
    (hasKey d attr = true → toggleGet d attr (some f) = pyGet d attr) ∧
    (hasKey d attr = false → lookupVal d f = some (.ref j) →
      h.get? j = some o →
      engineGet h d attr (some f) = .ok (pyGet o.fields attr)) ∧
    (hasKey d attr = false → toggleGet d attr (some f) = pyGet d f) := by
  refine ⟨?_, ?_, ?_, ?_⟩
  · intro hk
    simp [engineGet, hk]
  · intro hk
    simp [toggleGet, hk]
  · intro hk hf hj
    rw [List.get?_eq_getElem?] at hj
    simp [engineGet, hk, pyGet, hf, hj]
  · intro hk
    simp [toggleGet, hk]

/-- C2 witness: a table dict with no local engine and a `schema` slot
referencing heap object 0 (whose dict holds `engine`) resolves `engine`
to the schema's engine; with a local engine set, the local value wins. -/
theorem c2_witness :
    engineGet [Obj.mk "schema" false false [("engine", Val.vengine 7)]]
      [("schema", Val.ref 0)] "engine" (some "schema") =
      .ok (pyGet [("engine", Val.vengine 7)] "engine") ∧
    engineGet [] [("engine", Val.vengine 3)] "engine" (some "schema") =
      .ok (pyGet [("engine", Val.vengine 3)] "engine") := by
  constructor
  · exact (c2_fallback_resolution
      [Obj.mk "schema" false false [("engine", Val.vengine 7)]]
      [("schema", Val.ref 0)] "engine" "schema" 0
      (Obj.mk "schema" false false [("engine", Val.vengine 7)])).2.2.1
      (by decide) (by decide) rfl
  · exact (c2_fallback_resolution [] [("engine", Val.vengine 3)] "engine"
      "schema" 0 (Obj.mk "" false false [])).1 (by decide)

/-- Modelled from the spec: a slot with a fallback name, if unset on the
instance, resolves by reading the same attribute name from the object
referenced by the fallback name.  This definition follows the spec's
words and is compared against the source's `Toggle._get_value`. -/
def specFallbackResolve (h : Heap) (d : DictT) (attr f : String) :
    Except Err Val :=
  if hasKey d attr then .ok (pyGet d attr)
  else
    match pyGet d f with
    | .ref j =>
      match h.get? j with
      | some o => .ok (pyGet o.fields attr)
      | Option.none => .error .attributeError
    | _ => .error .attributeError

/-- C2 counterexample: the claim quantifies over every fallback slot, but
the generic Toggle slots do not behave as it says.  The `key` slot of a
schema item is `ToggleStringVar("name")`; on an instance whose dict is
`[name -> "a"]`, `Toggle._get_value` returns the string stored under the
fallback name `name` itself (the string "a"), whereas resolving by
reading the attribute `key` from the object referenced by the fallback
name cannot produce "a" (the referenced value is a plain string, not an
object with an instance dict). -/
theorem c2_counterexample :
    toggleGet [("name", Val.vstr "a")] "key" (some "name") = Val.vstr "a" ∧
    specFallbackResolve [] [("name", Val.vstr "a")] "key" "name" =
      .error .attributeError ∧
    specFallbackResolve [] [("name", Val.vstr "a")] "key" "name" ≠
      .ok (toggleGet [("name", Val.vstr "a")] "key" (some "name")) := by
  refine ⟨rfl, rfl, ?_⟩
  intro hcontra
  exact Except.noConfusion hcontra

/-- Heap of one schema (position 0) and two of its items (positions 1
and 2), used to state C8. -/
def c8Heap (sd td ud : DictT) : Heap :=
  [Obj.mk "schema" false false sd,
   Obj.mk "table" true false td,
   Obj.mk "table" true false ud]

/-- C8: setting `engine` on a schema item whose engine slot has fallback
name `schema` stores the value in the referenced schema object's dict,
leaves the item's own dict untouched (hence without an `engine` entry),
makes every sibling of the same schema resolve that engine value, and
enforces the one-time-write check against the schema's dict: a second
set through any sibling raises `IllegalOperation`
(SQLiteEngine.__set__/_get_value, descriptors.py; SchemaItem,
schema.py). -/
theorem c8_engine_set_redirects (sd td ud : DictT) (E : Nat)
    (hts : lookupVal td "schema" = some (.ref 0))
    (hus : lookupVal ud "schema" = some (.ref 0))
    (hse : hasKey sd "engine" = false)
    (hte : hasKey td "engine" = false)
    (hue : hasKey ud "engine" = false) :
    engineSet (c8Heap sd td ud) 1 "engine" (some "schema") (.vengine E) =
      .ok (c8Heap (dictUpdate sd "engine" (.vengine E)) td ud) ∧
    (c8Heap (dictUpdate sd "engine" (.vengine E)) td ud).get? 1 =
      some (Obj.mk "table" true false td) ∧
    engineGet (c8Heap (dictUpdate sd "engine" (.vengine E)) td ud) td
      "engine" (some "schema") = .ok (.vengine E) ∧
    engineGet (c8Heap (dictUpdate sd "engine" (.vengine E)) td ud) ud
      "engine" (some "schema") = .ok (.vengine E) ∧
    engineSet (c8Heap (dictUpdate sd "engine" (.vengine E)) td ud) 2
      "engine" (some "schema") (.vengine E) = .error .illegalOperation := by
  have hupd : lookupVal (dictUpdate sd "engine" (.vengine E)) "engine" =
      some (.vengine E) := lookup_dictUpdate_self sd "engine" (.vengine E)
  have hupdKey : hasKey (dictUpdate sd "engine" (.vengine E)) "engine" = true := by
    simp [hasKey, hupd]
  refine ⟨?_, ?_, ?_, ?_, ?_⟩
  · simp [engineSet, c8Heap, pyGet, hts, hse, checkEngineVal, setFields,
      List.get?]
  · rfl
  · simp [engineGet, c8Heap, hte, pyGet, hts, hupd]
  · simp [engineGet, c8Heap, hue, pyGet, hus, hupd]
  · simp [engineSet, c8Heap, pyGet, hus, hupdKey, checkEngineVal,
      List.get?]

/-- C8 witness: the redirection at concrete dictionaries. -/
theorem c8_witness :
    engineSet (c8Heap [("name", Val.vstr "main")]
        [("name", Val.vstr "t"), ("schema", Val.ref 0)]
        [("name", Val.vstr "u"), ("schema", Val.ref 0)])
      1 "engine" (some "schema") (.vengine 5) =
      .ok (c8Heap (dictUpdate [("name", Val.vstr "main")] "engine" (.vengine 5))
        [("name", Val.vstr "t"), ("schema", Val.ref 0)]
        [("name", Val.vstr "u"), ("schema", Val.ref 0)]) ∧
    engineGet (c8Heap (dictUpdate [("name", Val.vstr "main")] "engine" (.vengine 5))
        [("name", Val.vstr "t"), ("schema", Val.ref 0)]
        [("name", Val.vstr "u"), ("schema", Val.ref 0)])
      [("name", Val.vstr "u"), ("schema", Val.ref 0)]
      "engine" (some "schema") = .ok (.vengine 5) := by
  constructor
  · exact (c8_engine_set_redirects [("name", Val.vstr "main")]
      [("name", Val.vstr "t"), ("schema", Val.ref 0)]
      [("name", Val.vstr "u"), ("schema", Val.ref 0)] 5
      (by decide) (by decide) (by decide) (by decide) (by decide)).1
  · exact (c8_engine_set_redirects [("name", Val.vstr "main")]
      [("name", Val.vstr "t"), ("schema", Val.ref 0)]
      [("name", Val.vstr "u"), ("schema", Val.ref 0)] 5
      (by decide) (by decide) (by decide) (by decide) (by decide)).2.2.2.1

/-- Python `kwargs.pop(k, default-absent)`: the popped value (if any) and
the remaining keyword dict. -/
def popKw (kwargs : DictT) (k : String) : Option Val × DictT :=
  (lookupVal kwargs k, kwargs.filter (fun kv => ¬ (kv.1 = k)))

/-- The single_quote helper of utils.py: a string is wrapped in single
quotes, any other value is returned unchanged. -/
def singleQuote (v : Val) : Val :=
  match v with
  | .vstr s => .vstr ("'" ++ s ++ "'")
  | _ => v

/-- Python `isinstance(v, str)`, the requirement `', '.join` places on
every element of its argument. -/
def isStrVal (v : Val) : Bool :=
  match v with
  | .vstr _ => true
  | _ => false

/-- Model._check_params: after construction has consumed its arguments,
`params = args + list(kwargs)`; when any parameters remain, the message
is built from `', '.join([single_quote(p) for p in params])`.
`single_quote` passes non-string values through unchanged, and `join`
raises `TypeError` on any non-string element, so a leftover non-string
positional (such as a child model object) raises `TypeError` before the
`ArgumentError` is constructed; only when every leftover positional is
a string is `ArgumentError` raised (modelled by the positional count
and the remaining keyword names). -/
def Model.checkParams (args : List Val) (kwargs : DictT) : Except Err Unit :=
  let params := args ++ (keysOf kwargs).map Val.vstr
  if params.length = 0 then .ok ()
  else
    if (params.map singleQuote).all isStrVal then
      .error (.argumentError args.length (keysOf kwargs))
    else .error .typeError

/-- Python `hasattr(arg, "__type_name__") and arg.__type_name__ == target`:
true exactly for a reference to a heap object whose type tag is `target`. -/
def isTypeTag (h : Heap) (target : String) (v : Val) : Bool :=
  match v with
  | .ref i =>
    match h.get? i with
    | some o => o.typeName == target
    | Option.none => false
  | _ => false

/-- Model._filter_items: the two-pass filter.  The first pass removes the
positional arguments whose type tag matches the (lowercased) target and
yields them; the second removes the matching keyword arguments, recording
the keyword name (assigned to the child's `key` by the caller side of the
generator).  Returns the yielded (keyword-name?, child) list plus the
remaining positional and keyword arguments. -/
def Model.filterItems (h : Heap) (target : String) (args : List Val)
    (kwargs : DictT) :
    List (Option String × Val) × List Val × DictT :=
  let t := lowerString target
  ((args.filter (fun v => isTypeTag h t v)).map (fun v => (Option.none, v)) ++
     (kwargs.filter (fun kv => isTypeTag h t kv.2)).map
       (fun kv => (some kv.1, kv.2)),
   args.filter (fun v => ¬ (isTypeTag h t v = true)),
   kwargs.filter (fun kv => ¬ (isTypeTag h t kv.2 = true)))

/-- Apply a validating immutable descriptor set to the dict of heap
object `i`. -/
def objVarSet (h : Heap) (i : Nat) (check : Val → Except Err Val)
    (attr : String) (v : Val) : Except Err Heap :=
  match h.get? i with
  | some o =>
    match varSet check o.fields attr v with
    | .error e => .error e
    | .ok d => .ok (setFields h i d)
  | Option.none => .error .attributeError

/-- Collection._update_fields: fold the (key, value) pairs through
`_check_item` followed by `_fields.update`. -/
def Collection.updateFields (c : DictT) : List (String × Val) → Except Err DictT
  | [] => .ok c
  | kv :: rest =>
    match Collection.checkItem c kv.1 kv.2 with
    | .error e => .error e
    | .ok kv' => Collection.updateFields (dictUpdate c kv'.1 kv'.2) rest

/-- Insert into the collection object referenced by attribute `attr` of
heap object `s` (e.g. `self.tables.insert(model.key, model)` in
BaseSchema.add_table). -/
def collInsertOn (h : Heap) (s : Nat) (attr : String) (k : String) (v : Val) :
    Except Err Heap :=
  match h.get? s with
  | some so =>
    match pyGet so.fields attr with
    | .ref cid =>
      match h.get? cid with
      | some co =>
        match MixinCollection.insert co.fields k v with
        | .error e => .error e
        | .ok d => .ok (setFields h cid d)
      | Option.none => .error .attributeError
    | _ => .error .attributeError
  | Option.none => .error .attributeError

/-- Schema.__init__ (schema.py): validate and store the name through the
SchemaName slot, create the four empty owned collections, pop and store
an `engine` keyword if present (SQLiteEngine slot without fallback), and
finally `_check_params` rejects every remaining positional or keyword
argument.  The schema object is allocated at position `h.length` and its
fresh collections right after it; since all writes of the constructor
target these fresh objects, the dict is assembled locally and the heap
extended once, which produces the same final state and the same errors
in the same order as the source. -/
def Schema.init (h : Heap) (name : String) (args : List Val)
    (kwargs : DictT) : Except Err (Heap × Nat) :=
  let s := h.length
  match varSet checkSchemaNameVal [] "name" (Val.vstr name) with
  | .error e => .error e
  | .ok d0 =>
    match varSet checkAny d0 "tables" (Val.ref (s + 1)) with
    | .error e => .error e
    | .ok d1 =>
      match varSet checkAny d1 "indexes" (Val.ref (s + 2)) with
      | .error e => .error e
      | .ok d2 =>
        match varSet checkAny d2 "views" (Val.ref (s + 3)) with
        | .error e => .error e
        | .ok d3 =>
          match varSet checkAny d3 "triggers" (Val.ref (s + 4)) with
          | .error e => .error e
          | .ok d4 =>
            let (engOpt, kwargs') := popKw kwargs "engine"
            let dRes : Except Err DictT :=
              match engOpt with
              | some ev => varSet checkEngineVal d4 "engine" ev
              | Option.none => .ok d4
            match dRes with
            | .error e => .error e
            | .ok d5 =>
              match Model.checkParams args kwargs' with
              | .error e => .error e
              | .ok _ =>
                .ok (h ++ [Obj.mk "schema" false false d5,
                  Obj.mk "tables" false true [],
                  Obj.mk "indexes" false true [],
                  Obj.mk "views" false true [],
                  Obj.mk "triggers" false true []], s)

/-- Column.__init__ (schema.py): validate name and declared type, pop the
`null`/`primary`/`unique`/`index` keywords with their defaults through
the corresponding slots, and reject leftovers with `_check_params`.  The
column is allocated at position `h.length`. -/
def Column.init (h : Heap) (name ty : String) (args : List Val)
    (kwargs : DictT) : Except Err (Heap × Nat) :=
  match varSet checkStr [] "name" (Val.vstr name) with
  | .error e => .error e
  | .ok d0 =>
    match varSet checkStr d0 "type" (Val.vstr ty) with
    | .error e => .error e
    | .ok d1 =>
      let (nullV, kw1) := popKw kwargs "null"
      match varSet checkBool d1 "null" (nullV.getD (Val.vbool true)) with
      | .error e => .error e
      | .ok d2 =>
        let (primV, kw2) := popKw kw1 "primary"
        match varSet checkAny d2 "primary" (primV.getD (Val.vbool false)) with
        | .error e => .error e
        | .ok d3 =>
          let (uniqV, kw3) := popKw kw2 "unique"
          match varSet checkBool d3 "unique" (uniqV.getD (Val.vbool false)) with
          | .error e => .error e
          | .ok d4 =>
            let (idxV, kw4) := popKw kw3 "index"
            match varSet checkBool d4 "index" (idxV.getD (Val.vbool false)) with
            | .error e => .error e
            | .ok d5 =>
              match Model.checkParams args kw4 with
              | .error e => .error e
              | .ok _ => .ok (h ++ [Obj.mk "column" true false d5], h.length)

/-- Table._filter_columns body for one yielded child: when the child came
from a keyword argument, `item.key = key` stores the keyword name through
the `ToggleStringVar` key slot; `Table._set_child` then sets the child's
`table` and (via `Model._set_child`) `parent` back-references, and the
generator yields `(column.key, column)`, the key resolving through the
Toggle fallback to the column's `name` when no key was assigned. -/
def Table.registerColumn (h : Heap) (t : Nat) (e : Option String × Val) :
    Except Err (Heap × (String × Val)) :=
  let step0 : Except Err Heap :=
    match e.1, e.2 with
    | some k, .ref c => objVarSet h c checkStr "key" (Val.vstr k)
    | some _, _ => .error .attributeError
    | Option.none, _ => .ok h
  match step0 with
  | .error er => .error er
  | .ok h1 =>
    match e.2 with
    | .ref c =>
      match objVarSet h1 c checkAny "table" (Val.ref t) with
      | .error er => .error er
      | .ok h2 =>
        match objVarSet h2 c checkAny "parent" (Val.ref t) with
        | .error er => .error er
        | .ok h3 =>
          match h3.get? c with
          | some o =>
            match toggleGet o.fields "key" (some "name") with
            | .vstr k => .ok (h3, (k, .ref c))
            | _ => .error .attributeError
          | Option.none => .error .attributeError
    | _ => .error .attributeError

/-- Register every filtered column in order, collecting the (key, column)
pairs the generator yields. -/
def Table.registerColumns (h : Heap) (t : Nat) :
    List (Option String × Val) → Except Err (Heap × List (String × Val))
  | [] => .ok (h, [])
  | e :: rest =>
    match Table.registerColumn h t e with
    | .error er => .error er
    | .ok (h1, kv) =>
      match Table.registerColumns h1 t rest with
      | .error er => .error er
      | .ok (h2, kvs) => .ok (h2, kv :: kvs)

/-- Table.__init__ (schema.py): store the name; `schema.add_table(self)`
sets the table's `schema` and `parent` back-references and inserts the
table into the schema's Tables collection under `model.key` (which
resolves through the Toggle fallback to the table's name); then
`_rezolve_columns` filters the positional/keyword arguments for
column-tagged children, registers them and builds the Columns collection;
`row_id` and `engine` keywords are popped (the engine set redirecting to
the schema's dict through the `SQLiteEngine("schema")` slot); finally
`_check_params` rejects every remaining argument.  The table object is
allocated at position `h.length`; its Columns collection object is
allocated after the column registrations. -/
def Table.init (h : Heap) (name : String) (s : Nat) (args : List Val)
    (kwargs : DictT) : Except Err (Heap × Nat) :=
  let t := h.length
  match objVarSet (h ++ [Obj.mk "table" true false []]) t checkStr "name"
      (Val.vstr name) with
  | .error e => .error e
  | .ok h1 =>
    match objVarSet h1 t checkAny "schema" (Val.ref s) with
    | .error e => .error e
    | .ok h2 =>
      match objVarSet h2 t checkAny "parent" (Val.ref s) with
      | .error e => .error e
      | .ok h3 =>
        let keyRes : Except Err String :=
          match h3.get? t with
          | some o =>
            match toggleGet o.fields "key" (some "name") with
            | .vstr k => .ok k
            | _ => .error .attributeError
          | Option.none => .error .attributeError
        match keyRes with
        | .error e => .error e
        | .ok key =>
          match collInsertOn h3 s "tables" key (Val.ref t) with
          | .error e => .error e
          | .ok h4 =>
            let (matched, args1, kwargs1) :=
              Model.filterItems h4 "column" args kwargs
            match Table.registerColumns h4 t matched with
            | .error e => .error e
            | .ok (h5, colPairs) =>
              match Collection.updateFields [] colPairs with
              | .error e => .error e
              | .ok cols =>
                let cid := h5.length
                match objVarSet (h5 ++ [Obj.mk "columns" false true cols]) t
                    checkAny "columns" (Val.ref cid) with
                | .error e => .error e
                | .ok h6 =>
                  let (ridV, kwargs2) := popKw kwargs1 "row_id"
                  match objVarSet h6 t checkBool "row_id"
                      (ridV.getD (Val.vbool true)) with
                  | .error e => .error e
                  | .ok h7 =>
                    let (engOpt, kwargs3) := popKw kwargs2 "engine"
                    let hRes : Except Err Heap :=
                      match engOpt with
                      | some ev => engineSet h7 t "engine" (some "schema") ev
                      | Option.none => .ok h7
                    match hRes with
                    | .error e => .error e
                    | .ok h8 =>
                      match Model.checkParams args1 kwargs3 with
                      | .error e => .error e
                      | .ok _ => .ok (h8, t)

/-- Exported generic values produced by the `as_dict` conversion of
mixins.py: strings, booleans, nested string-keyed mappings, engine
objects passed through unchanged (they are not DictMixin instances), and
`None`. -/
inductive DVal where
  | dstr (s : String)
  | dbool (b : Bool)
  | dengine (id : Nat)
  | dnone
  | ddict (entries : List (String × DVal))

/-- The parent substitution target of an object's `_traverse`: for a
`BaseItem` the value of its `parent` slot when it references a heap
object, nothing otherwise (BaseItem._traverse, schema.py). -/
def subOf (o : Obj) : Option Nat :=
  if o.isItem then
    match lookupVal o.fields "parent" with
    | some (.ref p) => some p
    | _ => Option.none
  else Option.none

/-- Input of the traversal evaluator: a single value or a dict's entry
list, together with the active parent-substitution target. -/
inductive TravIn where
  | one (sub : Option Nat) (v : Val)
  | many (sub : Option Nat) (l : List (String × Val))

/-- Output of the traversal evaluator. -/
inductive TravOut where
  | one (d : DVal)
  | many (l : List (String × DVal))

/-- DictMixin._traverse and _traverse_dict together with the
BaseItem._traverse override, as one fuel-indexed evaluator: when the
traversed value is (identical to) the traversing object's parent, the
parent's `name` attribute is traversed in its place; otherwise a
DictMixin value (a schema-graph object or a collection) recurses into
its dict, and plain values pass through; a dict is traversed entry by
entry in order.  The fuel bounds the number of steps, so any successful
run with finite fuel witnesses termination of the export. -/
def travAux (h : Heap) : Nat → TravIn → Option TravOut
  | 0, _ => Option.none
  | _ + 1, .one _ (.vstr s) => some (.one (.dstr s))
  | _ + 1, .one _ (.vbool b) => some (.one (.dbool b))
  | _ + 1, .one _ (.vengine n) => some (.one (.dengine n))
  | _ + 1, .one _ .vnone => some (.one .dnone)
  | fuel + 1, .one sub (.ref j) =>
    if sub = some j then
      match h.get? j with
      | some p => travAux h fuel (.one Option.none (pyGet p.fields "name"))
      | Option.none => Option.none
    else
      match h.get? j with
      | some o =>
        let sub' := if o.isColl then Option.none else subOf o
        match travAux h fuel (.many sub' o.fields) with
        | some (.many l) => some (.one (.ddict l))
        | _ => Option.none
      | Option.none => Option.none
  | _ + 1, .many _ [] => some (.many [])
  | fuel + 1, .many sub ((k, v) :: rest) =>
    match travAux h fuel (.one sub v) with
    | some (.one dv) =>
      match travAux h fuel (.many sub rest) with
      | some (.many drest) => some (.many ((k, dv) :: drest))
      | _ => Option.none
    | _ => Option.none

/-- DictMixin._traverse of a single value. -/
def travVal (h : Heap) (fuel : Nat) (sub : Option Nat) (v : Val) :
    Option DVal :=
  match travAux h fuel (.one sub v) with
  | some (.one d) => some d
  | _ => Option.none

/-- DictMixin.as_dict of the heap object at position `i`. -/
def asDict (h : Heap) (fuel : Nat) (i : Nat) : Option DVal :=
  travVal h fuel Option.none (Val.ref i)

/-- Lookup in an exported mapping. -/
def dGet (v : DVal) (k : String) : Option DVal :=
  match v with
  | .ddict l => dFind l k
  | _ => Option.none
where
  dFind : List (String × DVal) → String → Option DVal
    | [], _ => Option.none
    | (k', v') :: rest, k => if k' = k then some v' else dFind rest k

/-- The claim's scenario: a schema "main", a column "a", and a table
"table_1" constructed on that schema with the column passed positionally
(which registers the table into the schema's Tables collection and the
column into the table's Columns collection). -/
def c6Build : Except Err (Heap × Nat) :=
  match Schema.init [] "main" [] [] with
  | .error e => .error e
  | .ok (h, s) =>
    match Column.init h "a" "TEXT" [] [] with
    | .error e => .error e
    | .ok (h1, c) =>
      match Table.init h1 "table_1" s [Val.ref c] [] with
      | .error e => .error e
      | .ok (h2, _) => .ok (h2, s)

/-- Export of the built schema with fuel 64. -/
def c6Export : Option DVal :=
  match c6Build with
  | .ok (h, s) => asDict h 64 s
  | .error _ => Option.none

/-- The heap produced by the C6 scenario, when construction succeeds. -/
def c6HeapOf : Option Heap :=
  match c6Build with
  | .ok (h, _) => some h
  | .error _ => Option.none

/-- C6: exporting the schema that owns table "table_1" terminates (the
fuel-bounded evaluator succeeds with finite fuel, although the heap
contains the table's and the column's back-references), substitutes the
back-references to each entity's own parent with the parent's name
string (the table's `schema` and `parent` entries become "main", the
column's `table` entry becomes "table_1"), and re-reading
tables -> table_1 -> name yields the original table name (DictMixin,
mixins.py; BaseItem._traverse, schema.py). -/
theorem c6_export_roundtrip :
    ((c6Export.bind (fun d => dGet d "tables")).bind
        (fun d => dGet d "table_1")).bind (fun d => dGet d "name") =
      some (.dstr "table_1") ∧
    ((c6Export.bind (fun d => dGet d "tables")).bind
        (fun d => dGet d "table_1")).bind (fun d => dGet d "schema") =
      some (.dstr "main") ∧
    ((c6Export.bind (fun d => dGet d "tables")).bind
        (fun d => dGet d "table_1")).bind (fun d => dGet d "parent") =
      some (.dstr "main") ∧
    ((((c6Export.bind (fun d => dGet d "tables")).bind
        (fun d => dGet d "table_1")).bind (fun d => dGet d "columns")).bind
        (fun d => dGet d "a")).bind (fun d => dGet d "table") =
      some (.dstr "table_1") ∧
    c6Export.isSome = true := by
  exact ⟨rfl, rfl, rfl, rfl, rfl⟩

/-- A heap holding one already-built table-tagged object, passed
positionally to the Schema constructor in the C1 counterexample. -/
def c1h : Heap := [Obj.mk "table" true false [("name", Val.vstr "t1")]]

/-- C1 counterexample: constructing a Schema with a child object whose
type tag is "table" passed positionally does not classify or register
it; `Schema.__init__` performs no filtering, so the argument reaches
`_check_params` unconsumed, where building the error message joins the
single-quoted parameters and raises `TypeError` on the non-string child
object — contrary to the claim, the child is never registered and the
constructor raises. -/
theorem c1_counterexample :
    isTypeTag c1h "table" (Val.ref 0) = true ∧
    Schema.init c1h "main" [Val.ref 0] [] = .error .typeError := by
  exact ⟨rfl, rfl⟩

theorem all_isStr_map_singleQuote (args : List Val) :
    ((args.map singleQuote).all isStrVal) = args.all isStrVal := by
  induction args with
  | nil => rfl
  | cons a as ih => cases a <;> simp [singleQuote, isStrVal, ih]

theorem all_isStr_map_vstr_quote (l : List String) :
    (((l.map Val.vstr).map singleQuote).all isStrVal) = true := by
  induction l with
  | nil => rfl
  | cons a as ih => simp [singleQuote, isStrVal, ih]

/-- C1 (amended): `Schema.__init__` does not run the filter/register
protocol: every positional argument, whatever its type tag, is left
unconsumed and reaches `_check_params`, which raises `ArgumentError`
naming the unresolved parameters when every leftover positional is a
string, and `TypeError` (from joining the single-quoted parameters into
the message) when any leftover positional is a non-string object such as
a child model object; either way the child is never classified or
registered.  The two-pass `Model._filter_items` protocol is used by
`Table.__init__` for Column arguments, and Schema children are
registered instead by the child constructors through the `add_*`
methods, as the C6 scenario shows: after it, the schema's Tables
collection holds the table and the table's Columns collection holds the
positionally passed column (schema.py, utils.py). -/
theorem c1_schema_positional_unresolved :
    (∀ (h : Heap) (args : List Val) (kwargs : DictT), args ≠ [] →
      lookupVal kwargs "engine" = Option.none →
      (args.all isStrVal = true →
        Schema.init h "main" args kwargs =
          .error (.argumentError args.length
            (keysOf (kwargs.filter (fun kv => ¬ (kv.1 = "engine")))))) ∧
      (args.all isStrVal = false →
        Schema.init h "main" args kwargs = .error .typeError)) ∧
    c6HeapOf.bind (fun hh => (hh.get? 1).map Obj.fields) =
      some [("table_1", Val.ref 6)] ∧
    c6HeapOf.bind (fun hh => (hh.get? 7).map Obj.fields) =
      some [("a", Val.ref 5)] := by
  refine ⟨?_, rfl, rfl⟩
  intro h args kwargs hargs heng
  obtain ⟨a, as, rfl⟩ : ∃ a as, args = a :: as := by
    cases args with
    | nil => exact absurd rfl hargs
    | cons a as => exact ⟨a, as, rfl⟩
  have hQ : ((((a :: as) ++
      (keysOf (kwargs.filter (fun kv => ¬ (kv.1 = "engine")))).map
        Val.vstr).map singleQuote).all isStrVal) =
      (a :: as).all isStrVal := by
    rw [List.map_append, List.all_append, all_isStr_map_singleQuote,
      all_isStr_map_vstr_quote, Bool.and_true]
  constructor
  · intro hstr
    simp only [Schema.init, popKw, heng, Model.checkParams]
    rw [if_neg (by simp)]
    rw [if_pos (hQ.trans hstr)]
    rfl
  · intro hstr
    simp only [Schema.init, popKw, heng, Model.checkParams]
    rw [if_neg (by simp)]
    rw [if_neg (by rw [hQ, hstr]; exact Bool.false_ne_true)]
    rfl

/-- C1 witness: the amended behaviour at concrete inputs, one per error
path. -/
theorem c1_witness :
    Schema.init [] "main" [Val.vstr "x"] [] =
      .error (.argumentError 1
        (keysOf (List.filter (fun kv => ¬ (kv.1 = "engine")) []))) ∧
    Schema.init [] "main" [Val.vbool true] [] = .error .typeError := by
  constructor
  · exact (c1_schema_positional_unresolved.1 [] [Val.vstr "x"] []
      (by simp) rfl).1 rfl
  · exact (c1_schema_positional_unresolved.1 [] [Val.vbool true] []
      (by simp) rfl).2 rfl

/-- ON_CONFLICT from constants.py. -/
def ON_CONFLICT : List String := ["ROLLBACK", "ABORT", "FAIL", "IGNORE", "REPLACE"]

/-- ORDER from constants.py (defined there but referenced nowhere in the
package). -/
def ORDER : List String := ["ASC", "DESC"]

/-- StringVar._check_value at the string level: a non-empty string is
required. -/
def StringVar.checkS (s : String) : Except Err String :=
  if s.length > 0 then .ok s else .error .valueError

/-- OnConflict._check_resolution (constraints.py): uppercase the value
and require it to be one of ON_CONFLICT, raising `ConstraintError`
naming the allowed set otherwise; the uppercased algorithm is returned. -/
def OnConflict.checkResolution (value : String) : Except Err String :=
  let algorithm := upperString value
  if algorithm ∈ ON_CONFLICT then .ok algorithm
  else .error (.constraintError value)

/-- The PrimaryKey constraint object (constraints.py). -/
structure PrimaryKeyObj where
  name : String
  order : String
  on_conflict : String
  autoincrement : Bool
deriving DecidableEq, Repr

/-- PrimaryKey.__init__ (constraints.py): `name` and `order` are stored
through `ImmutableStringVar` slots (non-empty string validation only;
`order` defaults to "ASC" and is never compared against ORDER);
`on_conflict` defaults to "ABORT", goes through `_check_resolution` and
is then stored through its own `ImmutableStringVar` slot; `autoincrement`
defaults to `False`. -/
def PrimaryKey.init (name : String) (order onConflict : Option String)
    (autoincrement : Option Bool) : Except Err PrimaryKeyObj :=
  match StringVar.checkS name with
  | .error e => .error e
  | .ok n =>
    match StringVar.checkS (order.getD "ASC") with
    | .error e => .error e
    | .ok o =>
      match OnConflict.checkResolution (onConflict.getD "ABORT") with
      | .error e => .error e
      | .ok res =>
        match StringVar.checkS res with
        | .error e => .error e
        | .ok oc => .ok ⟨n, o, oc, autoincrement.getD false⟩

/-- C7 (amended): the ordering direction defaults to "ASC", but a
supplied order value is only validated as a non-empty string: every
non-empty string is accepted, including values outside ORDER.  The
on-conflict algorithm is validated case-insensitively against
ON_CONFLICT, normalising to uppercase and raising `ConstraintError` on
any other value (constraints.py, constants.py). -/
theorem c7_primary_key_order (name o oc : String) :
    (name.length > 0 →
      PrimaryKey.init name Option.none Option.none Option.none =
        .ok ⟨name, "ASC", "ABORT", false⟩) ∧
    (name.length > 0 → o.length > 0 →
      PrimaryKey.init name (some o) Option.none Option.none =
        .ok ⟨name, o, "ABORT", false⟩) ∧
    (name.length > 0 → upperString oc ∈ ON_CONFLICT →
      PrimaryKey.init name Option.none (some oc) Option.none =
        .ok ⟨name, "ASC", upperString oc, false⟩) ∧
    (name.length > 0 → upperString oc ∉ ON_CONFLICT →
      PrimaryKey.init name Option.none (some oc) Option.none =
        .error (.constraintError oc)) := by
  refine ⟨?_, ?_, ?_, ?_⟩
  · intro hn
    simp [PrimaryKey.init, StringVar.checkS, hn, OnConflict.checkResolution]
    rfl
  · intro hn ho
    simp [PrimaryKey.init, StringVar.checkS, hn, ho,
      OnConflict.checkResolution]
    rfl
  · intro hn hmem
    have hlen : (upperString oc).length > 0 := by
      rcases (by simpa [ON_CONFLICT] using hmem :
          upperString oc = "ROLLBACK" ∨ upperString oc = "ABORT" ∨
          upperString oc = "FAIL" ∨ upperString oc = "IGNORE" ∨
          upperString oc = "REPLACE") with h | h | h | h | h <;>
        rw [h] <;> decide
    simp [PrimaryKey.init, StringVar.checkS, hn,
      OnConflict.checkResolution, hmem, hlen]
    rfl
  · intro hn hmem
    simp [PrimaryKey.init, StringVar.checkS, hn,
      OnConflict.checkResolution, hmem]
    rfl

/-- C7 witness: the amended behaviour at concrete inputs. -/
theorem c7_witness :
    PrimaryKey.init "pk" Option.none Option.none Option.none =
      .ok ⟨"pk", "ASC", "ABORT", false⟩ ∧
    PrimaryKey.init "pk" (some "DESC") Option.none Option.none =
      .ok ⟨"pk", "DESC", "ABORT", false⟩ ∧
    PrimaryKey.init "pk" Option.none (some "ignore") Option.none =
      .ok ⟨"pk", "ASC", upperString "ignore", false⟩ ∧
    PrimaryKey.init "pk" Option.none (some "bogus") Option.none =
      .error (.constraintError "bogus") := by
  refine ⟨?_, ?_, ?_, ?_⟩
  · exact (c7_primary_key_order "pk" "DESC" "ignore").1 (by decide)
  · exact (c7_primary_key_order "pk" "DESC" "ignore").2.1 (by decide)
      (by decide)
  · exact (c7_primary_key_order "pk" "DESC" "ignore").2.2.1 (by decide)
      (by decide)
  · exact (c7_primary_key_order "pk" "DESC" "bogus").2.2.2 (by decide)
      (by decide)

/-- C7 counterexample: a PrimaryKey constructed with the order value
"DOWN", which lies outside the ORDER enumeration, is accepted without
any error, contrary to the claim that such values are rejected. -/
theorem c7_counterexample :
    PrimaryKey.init "id" (some "DOWN") Option.none Option.none =
      .ok ⟨"id", "DOWN", "ABORT", false⟩ ∧
    "DOWN" ∉ ORDER := by
  exact ⟨rfl, by decide⟩

/-- Python str.startswith, written over the character lists so that it
reduces definitionally. -/
def strStartsWith (s pre : String) : Bool := pre.data.isPrefixOf s.data

/-- The del_prefix helper of utils.py: strip a leading occurrence of
`pfx` from `target`. -/
def stripLeading (target pfx : String) : String :=
  if 0 < pfx.length && strStartsWith target pfx then target.drop pfx.length
  else target

/-- The `file` component produced by parse_uri in utils.py: the part of
the value before the "?" with the "file:" marker stripped. -/
def parseUriFile (value : String) : String :=
  stripLeading ((value.splitOn "?").headD value) "file:"

/-- Modelled os.path.realpath for paths containing no symbolic links and
no dot segments: an absolute path (starting with "/") is returned as
given, a relative path is resolved against the current working
directory `cwd`.  The property the verification relies on is that
resolving the relative path ":memory:" never yields the literal
":memory:" again. -/
def realpathOf (cwd p : String) : String :=
  if strStartsWith p "/" then p else cwd ++ "/" ++ p

/-- Engine._get_file_path (engines.py): when the uri flag is set and the
database string carries the "file:" marker, resolve the uri's file
component, else resolve the database string itself; either way the
result goes through realpath. -/
def Engine.getFilePath (cwd database : String) (uri : Bool) : String :=
  if uri && strStartsWith database "file:" then
    realpathOf cwd (parseUriFile database)
  else realpathOf cwd database

/-- SQLite._check_path (engines.py) as a predicate: true exactly when the
call invokes `ensure_folder` (the directory-tree creation routine of
utils.py), i.e. when the ensure-folder option is enabled and the
realpath-resolved `_file_path` differs from the literal ":memory:". -/
def SQLite.checkPathInvokes (ensureFolderFlag : Bool) (filePath : String) :
    Bool :=
  ensureFolderFlag && decide (filePath ≠ ":memory:")

/-- C3 evaluated at the failing input: a connection manager constructed
with the in-memory marker ":memory:" and the ensure-folder option
enabled does invoke the directory-tree creation routine on acquire, for
every working directory and either value of the uri flag, because
`_check_path` compares the realpath-resolved `_file_path` (which is
`cwd + "/:memory:"`, never the bare marker) against ":memory:".  This
contradicts the `_check_path` docstring ("creates it if database is not
':memory:'") and the claim. -/
theorem c3_memory_marker_ensure_folder (cwd : String) (uri : Bool) :
    SQLite.checkPathInvokes true (Engine.getFilePath cwd ":memory:" uri) =
      true ∧
    Engine.getFilePath "/app" ":memory:" false = "/app/:memory:" := by
  constructor
  · have hfile : strStartsWith ":memory:" "file:" = false := rfl
    have hslash : strStartsWith ":memory:" "/" = false := rfl
    have hne : (cwd ++ "/" ++ ":memory:") ≠ ":memory:" := by
      intro hcontra
      have hlen := congrArg String.length hcontra
      rw [String.length_append, String.length_append] at hlen
      have h1 : (":memory:" : String).length = 8 := rfl
      have h2 : ("/" : String).length = 1 := rfl
      rw [h1, h2] at hlen
      omega
    simp [SQLite.checkPathInvokes, Engine.getFilePath, realpathOf, hfile,
      hslash, hne]
  · rfl
